import Mathlib

/-!
# OpenVoice gateway (`src/gateway/server.js`)

A shallow embedding of the Express gateway and the properties of its
forwarding core, its auth gate and its local file layer.

Conventions of the embedding:

* JavaScript strings are lists of characters (`Str`); every string operation
  the gateway uses (`startsWith`, `slice`, `split`, `includes`, template
  concatenation) acts on them position by position.
* JavaScript numbers that are compared (`mtimeMs`) are rationals: every finite
  double is one, and the sign of a difference of two doubles is the sign of
  their exact difference. Where a number passes through `JSON.parse` or
  `JSON.stringify`, the reading as a double and the writing of a double are
  functions of the world.
* What the gateway calls outside itself is a parameter, `World`: the file
  system, `res.sendFile`, the upstream `fetch`, `Buffer` and URI decoding,
  `url.parse`, the number formats of JSON, Express's freshness test and the
  working directory. The theorems with variables hold for every world.
  `sampleWorld` is one concrete world, used to evaluate the gateway at concrete
  requests.
* A thrown `Error` is an `Except.error`; a handler is a function from the
  response object so far to the response object when it is done (`Res`), which
  also records the URLs passed to `fetch` and the paths passed to
  `res.sendFile`.
* The middleware chain is `handle`: body parser, CORS middleware, auth gate,
  then Express's walk over the routes in registration order (`dispatch`), with
  its matching of literal, wildcard and parameter routes and its decoding of
  captured text. `res.json` goes through `res.send` (`Res.send`).
-/

deriving instance DecidableEq for Except

namespace Gateway

/-- JavaScript string: a sequence of characters. -/
abbrev Str := List Char

/-! ## String primitives used by the gateway -/

/-- JavaScript `s.startsWith(p)`. -/
def startsWith (s p : Str) : Bool := p.isPrefixOf s

/-- JavaScript `s.slice(n)` for `0 ≤ n`. -/
def slice (s : Str) (n : Nat) : Str := s.drop n

/-- JavaScript `s.includes(p)`: `p` occurs in `s` as a contiguous run. -/
def includes : Str → Str → Bool
  | [], p => p.isEmpty
  | c :: s, p => p.isPrefixOf (c :: s) || includes s p

/-- JavaScript `s.split(sep)` for a one-character separator: the fields between
occurrences of `sep`, always at least one field. -/
def split (sep : Char) : Str → List Str
  | [] => [[]]
  | c :: s =>
    if c = sep then [] :: split sep s
    else
      match split sep s with
      | [] => [[c]]
      | f :: fs => (c :: f) :: fs

/-- ASCII lower-casing of a string (header names, case-insensitive routes). -/
def lower (s : Str) : Str := s.map Char.toLower

/-! ## `path` (POSIX flavour of the Node module) -/

/-- Segment walk of Node's `normalizeString`: empty segments and `.` are
dropped, `..` removes the last kept segment; above the top it is kept when
`allowAboveRoot` holds and dropped otherwise. `acc` is the reversed stack. -/
def normalizeSegments (allowAboveRoot : Bool) : List Str → List Str → List Str
  | acc, [] => acc.reverse
  | acc, seg :: rest =>
    if seg = [] ∨ seg = ['.'] then normalizeSegments allowAboveRoot acc rest
    else if seg = ['.', '.'] then
      match acc with
      | top :: below =>
        if top = ['.', '.'] then
          normalizeSegments allowAboveRoot (if allowAboveRoot then seg :: acc else acc) rest
        else normalizeSegments allowAboveRoot below rest
      | [] => normalizeSegments allowAboveRoot (if allowAboveRoot then [seg] else []) rest
    else normalizeSegments allowAboveRoot (seg :: acc) rest

/-- Join segments with `/`. -/
def joinSegments : List Str → Str
  | [] => []
  | [s] => s
  | s :: t :: rest => s ++ '/' :: joinSegments (t :: rest)

/-- Node's `normalizeString(path, allowAboveRoot, "/")`. -/
def normalizeString (p : Str) (allowAboveRoot : Bool) : Str :=
  joinSegments (normalizeSegments allowAboveRoot [] (split '/' p))

/-- The right-to-left loop of `path.resolve`: arguments are prepended until an
absolute one has been added; empty arguments are skipped. Takes the arguments
in reverse order, the working directory last. -/
def resolveLoop : List Str → Str → Str × Bool
  | [], acc => (acc, false)
  | p :: rest, acc =>
    if p = [] then resolveLoop rest acc
    else if p.head? = some '/' then (p ++ '/' :: acc, true)
    else resolveLoop rest (p ++ '/' :: acc)

/-- Node's `path.resolve(...args)` with the process working directory `cwd`. -/
def pathResolve (cwd : Str) (args : List Str) : Str :=
  let r := resolveLoop (args.reverse ++ [cwd]) []
  let n := normalizeString r.1 (!r.2)
  if r.2 then '/' :: n else if n = [] then ['.'] else n

/-- Node's `path.normalize(p)`. -/
def pathNormalize (p : Str) : Str :=
  if p = [] then ['.']
  else
    let isAbsolute := p.head? = some '/'
    let trailingSeparator := p.getLast? = some '/'
    let n := normalizeString p (!isAbsolute)
    if n = [] then
      if isAbsolute then ['/'] else if trailingSeparator then ['.', '/'] else ['.']
    else
      let n := if trailingSeparator then n ++ ['/'] else n
      if isAbsolute then '/' :: n else n

/-- Node's `path.join(a, b)`: the non-empty arguments joined by `/`, then
normalised. -/
def pathJoin (a b : Str) : Str :=
  if a = [] then (if b = [] then ['.'] else pathNormalize b)
  else if b = [] then pathNormalize a
  else pathNormalize (a ++ '/' :: b)

/-! ## Path rewriting (`stripApiPrefix`, lines 52-54) -/

/-- The function `stripApiPrefix(url, prefix)`. -/
def stripApiPrefix (url pre : Str) : Str :=
  if startsWith url pre then slice url pre.length else url

/-! ## Containment check (`safeResolve`, lines 150-156) -/

/-- The function `safeResolve(root, fileName)`; `.error` stands for the thrown
`Error`. `cwd` is the process working directory `path.resolve` falls back on. -/
def safeResolve (cwd root fileName : Str) : Except Str Str :=
  let resolved := pathResolve cwd [root, fileName]
  if !startsWith resolved (pathResolve cwd [root]) then
    .error "Invalid path".toList
  else .ok resolved

/-! ## Data model -/

/-- The value a JSON text denotes; a number is the exact value of its decimal
literal. Used for the text of an upstream body and for the text the gateway
writes with `res.json`. -/
inductive Json where
  | null : Json
  | bool (b : Bool) : Json
  | num (q : ℚ) : Json
  | str (s : Str) : Json
  | arr (items : List Json) : Json
  | obj (members : List (Str × Json)) : Json

/-- The environment variables read at start-up (lines 9-15); `none` is an
unset variable. -/
structure Env where
  OPENVOICE_BASE_URL : Option Str
  REF_DIR : Option Str
  OUT_DIR : Option Str
  BASIC_AUTH_USER : Option Str
  BASIC_AUTH_PASS : Option Str
  CORS_ORIGIN : Option Str

/-- JavaScript `v || d` on an optional string: unset and empty are falsy. -/
def orDefault (v : Option Str) (d : Str) : Str :=
  match v with
  | some s => if s = [] then d else s
  | none => d

/-- Truthiness of an optional string (`if (BASIC_USER)`). -/
def truthy (v : Option Str) : Bool :=
  match v with
  | some s => !s.isEmpty
  | none => false

/-- The constant `BASE` (line 9). -/
def BASE (env : Env) : Str := orDefault env.OPENVOICE_BASE_URL "http://localhost:8786".toList

/-- The constant `REF_DIR` (line 10). -/
def REF_DIR (env : Env) : Str := orDefault env.REF_DIR "/refs".toList

/-- The constant `OUT_DIR` (line 11). -/
def OUT_DIR (env : Env) : Str := orDefault env.OUT_DIR "/outs".toList

/-- The constant `BASIC_USER` (line 13). -/
def BASIC_USER (env : Env) : Option Str := env.BASIC_AUTH_USER

/-- The constant `BASIC_PASS` (line 14). -/
def BASIC_PASS (env : Env) : Option Str := env.BASIC_AUTH_PASS

/-- The constant `CORS_ORIGIN` (line 15). -/
def CORS_ORIGIN (env : Env) : Str := orDefault env.CORS_ORIGIN "*".toList

/-- An inbound request. `headers` is Node's `req.headers` (lower-case names).
`bodyError` is the outcome of the `express.json` body parser of line 7:
`none` when it calls `next()`, `some status` when it fails the request. -/
structure Request where
  method : Str
  url : Str
  headers : List (Str × Str)
  bodyError : Option Nat

/-- Directory entry as `readdirSync(dir, { withFileTypes: true })` gives it. -/
structure Dirent where
  name : Str
  isFile : Bool
deriving DecidableEq

/-- The two fields of `fs.Stats` the gateway reads. -/
structure Stats where
  size : Nat
  mtimeMs : ℚ
deriving DecidableEq

/-- One element of a listing (lines 122-126). -/
structure Entry where
  name : Str
  size : Nat
  mtimeMs : ℚ
deriving DecidableEq

/-- What reading an upstream body yields. `json v`: the stream ends and its
text is JSON text denoting `v`. `notJson`: the stream ends and its text, the
empty text included, is not JSON text. `aborted rejects`: the stream breaks
before its end; `rejects` tells whether `upstream.json()` then rejects or never
settles (both occur, depending on the `node-fetch` release and on the
response's framing). -/
inductive Body where
  | json (v : Json) : Body
  | notJson : Body
  | aborted (rejects : Bool) : Body

/-- An upstream response: `headers` is the sequence `upstream.headers.forEach`
visits (lower-case names, one entry per name); `body` is `none` when
`upstream.body` is null. -/
structure Upstream where
  status : Nat
  headers : List (Str × Str)
  body : Option Body

/-- Outcome of `await fetch(url, init)`: the promise rejects with an error
message, or resolves with a response. -/
inductive FetchResult where
  | failed (message : Str) : FetchResult
  | response (up : Upstream) : FetchResult

/-- The `init` object of lines 59-66; `hasBody` tells whether the inbound
request stream is passed as body. -/
structure FetchInit where
  method : Str
  headers : List (Str × Str)
  hasBody : Bool

/-- What is written to the client. `json v`: a JSON text denoting `v`.
`file path`: the file `res.sendFile` streams. `pipe b`: the upstream body piped
through. `errorPage`: the page of Express's default handler. `pending`: the
handler never gets to answer. -/
inductive Payload where
  | empty : Payload
  | json (v : Json) : Payload
  | file (path : Str) : Payload
  | pipe (b : Body) : Payload
  | errorPage : Payload
  | pending : Payload

/-- The response object when the handler is done: status, the header map set
by the gateway's own code (lower-case names), what was written, the URLs
passed to `fetch` and the paths passed to `res.sendFile`. -/
structure Res where
  status : Nat
  headers : List (Str × Str)
  payload : Payload
  fetched : List Str
  sent : List Str

/-- Outcome of `res.sendFile(path)`: the file is served with a status, or the
error is passed to the default error handler, which answers with a status. -/
inductive SendResult where
  | served (status : Nat) : SendResult
  | failed (status : Nat) : SendResult

/-- Everything outside the gateway it calls into. `urlPathname` is the
`pathname` of Node's `url.parse`; `toDouble` is the double a number literal is
read as by `JSON.parse` (`none` beyond the range of doubles) and `printDouble`
the value of the literal `JSON.stringify` writes for a double; `fresh` is the
test Express makes on a conditional request (`If-None-Match`,
`If-Modified-Since`) against the response about to be sent. -/
structure World where
  cwd : Str
  base64Text : Str → Str
  decodeURIComponent : Str → Option Str
  urlPathname : Str → Option Str
  toDouble : ℚ → Option ℚ
  printDouble : ℚ → ℚ
  fresh : Request → Res → Bool
  readdirSync : Str → Except Str (List Dirent)
  statSync : Str → Except Str Stats
  sendFile : Request → Str → SendResult
  fetch : Str → FetchInit → FetchResult

/-- A fresh response object. -/
def Res.fresh : Res :=
  { status := 200, headers := [], payload := .empty, fetched := [], sent := [] }

/-- Assign `value` to `key` in a header map. -/
def setKey (key value : Str) : List (Str × Str) → List (Str × Str)
  | [] => [(key, value)]
  | (k, v) :: rest => if k = key then (key, value) :: rest else (k, v) :: setKey key value rest

/-- Read `key` from a header map. -/
def getKey (key : Str) : List (Str × Str) → Option Str
  | [] => none
  | (k, v) :: rest => if k = key then some v else getKey key rest

/-- Remove `key` from a header map. -/
def removeKey (key : Str) (hs : List (Str × Str)) : List (Str × Str) :=
  hs.filter (fun h => h.1 ≠ key)

/-- The calls `res.setHeader(name, value)` and `res.header(name, value)`: header
names are case-insensitive, the map is keyed by the lower-case name. -/
def Res.setHeader (res : Res) (name value : Str) : Res :=
  { res with headers := setKey (lower name) value res.headers }

/-- The call `res.getHeader(name)`. -/
def Res.getHeader (res : Res) (name : Str) : Option Str := getKey (lower name) res.headers

/-- The call `res.removeHeader(name)`. -/
def Res.removeHeader (res : Res) (name : Str) : Res :=
  { res with headers := removeKey (lower name) res.headers }

/-- The call `res.status(code)`. -/
def Res.withStatus (res : Res) (code : Nat) : Res := { res with status := code }

/-! ## Sending with Express (`res.send`, reached through `res.json`) -/

/-- Whether a route registered with `app.get` takes the request method. -/
def isGet (method : Str) : Bool := method = "GET".toList || method = "HEAD".toList

/-- Whether a route registered with `app.post` takes the request method. -/
def isPost (method : Str) : Bool := method = "POST".toList

/-- Whether the request is conditional: it carries a non-empty
`If-Modified-Since` or `If-None-Match`. -/
def conditional (req : Request) : Bool :=
  truthy (getKey "if-modified-since".toList req.headers) ||
  truthy (getKey "if-none-match".toList req.headers)

/-- Express's `req.fresh`: only for `GET` and `HEAD`, only for a status 2xx or
304, only for a conditional request, and then what the freshness test says. -/
def reqFresh (w : World) (req : Request) (res : Res) : Bool :=
  isGet req.method && ((200 ≤ res.status && res.status < 300) || res.status = 304) &&
  conditional req && w.fresh req res

/-- Express's `res.send` for a body `p`: a fresh conditional request is
answered 304; a status 204 or 304 loses its body and its content headers, a
status 205 its body; a `HEAD` request gets no body. -/
def Res.send (w : World) (req : Request) (res : Res) (p : Payload) : Res :=
  let res := { res with payload := p }
  let res := if reqFresh w req res then res.withStatus 304 else res
  let res :=
    if res.status = 204 ∨ res.status = 304 then
      { ((res.removeHeader "Content-Type".toList).removeHeader
          "Content-Length".toList).removeHeader "Transfer-Encoding".toList with
        payload := .empty }
    else res
  let res :=
    if res.status = 205 then
      { res.removeHeader "Transfer-Encoding".toList with payload := .empty }
    else res
  if req.method = "HEAD".toList then { res with payload := .empty } else res

/-- The call `res.json(x)`, where `v` is the value the text `JSON.stringify(x)`
denotes. -/
def Res.json (w : World) (req : Request) (res : Res) (v : Json) : Res :=
  res.send w req (.json v)

/-! ## `JSON.parse` followed by `JSON.stringify` -/

/-- The index a property name stands for when it is an array index: the
decimal numeral, without leading zero, of a number below `2^32 - 1`. -/
def arrayIndex (name : Str) : Option Nat :=
  if name = [] ∨ ¬ name.all Char.isDigit ∨ (name.head? = some '0' ∧ name.length ≠ 1) then none
  else
    let n := name.foldl (fun acc c => 10 * acc + (c.toNat - 48)) 0
    if n < 4294967295 then some n else none

/-- Add a property to a JavaScript object, given in property order: a name
already there keeps its place and takes the new value; a new array index goes
among the array indices, in ascending order, which come first; any other new
name goes last. -/
def defineProperty {α : Type} (name : Str) (value : α) : List (Str × α) → List (Str × α)
  | [] => [(name, value)]
  | (k, v) :: rest =>
    if k = name then (name, value) :: rest
    else if rest.any (fun kv => kv.1 = name) then (k, v) :: defineProperty name value rest
    else
      match arrayIndex name, arrayIndex k with
      | some n, some m =>
        if n < m then (name, value) :: (k, v) :: rest else (k, v) :: defineProperty name value rest
      | some _, none => (name, value) :: (k, v) :: rest
      | none, _ => (k, v) :: defineProperty name value rest

/-- The properties of the object `JSON.parse` builds from the members of an
object literal, read from left to right. -/
def buildObject {α : Type} (members : List (Str × α)) : List (Str × α) :=
  members.foldl (fun acc kv => defineProperty kv.1 kv.2 acc) []

mutual
/-- The value denoted by `JSON.stringify(JSON.parse(t))` for a JSON text `t`
denoting `v`: a number is read as a double and written back, one beyond the
range of doubles is written `null`; an object keeps one member per name, in
property order. -/
def reserialise (w : World) : Json → Json
  | .null => .null
  | .bool b => .bool b
  | .num q =>
    match w.toDouble q with
    | some d => .num (w.printDouble d)
    | none => .null
  | .str s => .str s
  | .arr items => .arr (reserialiseItems w items)
  | .obj members => .obj (buildObject (reserialiseMembers w members))
/-- The items of an array, each passed through `reserialise`. -/
def reserialiseItems (w : World) : List Json → List Json
  | [] => []
  | v :: rest => reserialise w v :: reserialiseItems w rest
/-- The members of an object, each value passed through `reserialise`. -/
def reserialiseMembers (w : World) : List (Str × Json) → List (Str × Json)
  | [] => []
  | (k, v) :: rest => (k, reserialise w v) :: reserialiseMembers w rest
end

mutual
/-- Values that `JSON.parse` and `JSON.stringify` leave as they are whatever
the number format: no number, and in every object distinct member names none
of which is an array index. -/
def Json.plain : Json → Bool
  | .null => true
  | .bool _ => true
  | .num _ => false
  | .str _ => true
  | .arr items => Json.plainItems items
  | .obj members => Json.plainMembers members
/-- All items are plain. -/
def Json.plainItems : List Json → Bool
  | [] => true
  | v :: rest => Json.plain v && Json.plainItems rest
/-- All member values are plain, the names are distinct and none is an array
index. -/
def Json.plainMembers : List (Str × Json) → Bool
  | [] => true
  | (k, v) :: rest =>
    Json.plain v && (arrayIndex k).isNone && !rest.any (fun kv => kv.1 = k) &&
      Json.plainMembers rest
end

/-! ## CORS middleware (lines 17-32) -/

/-- The three `res.header` calls of lines 18-26. -/
def corsHeaders (env : Env) (res : Res) : Res :=
  ((res.setHeader "Access-Control-Allow-Origin".toList (CORS_ORIGIN env)).setHeader
      "Access-Control-Allow-Headers".toList
      "Origin, X-Requested-With, Content-Type, Accept, Authorization".toList).setHeader
    "Access-Control-Allow-Methods".toList "GET, POST, PUT, PATCH, DELETE, OPTIONS".toList

/-! ## Basic auth gate (lines 34-46) -/

/-- The class `\s` of JavaScript regular expressions. -/
def isJsSpace (c : Char) : Bool :=
  let n := c.toNat
  n = 9 || n = 10 || n = 11 || n = 12 || n = 13 || n = 32 || n = 160 || n = 5760 ||
  (8192 ≤ n && n ≤ 8202) || n = 8232 || n = 8233 || n = 8239 || n = 8287 || n = 12288 ||
  n = 65279

/-- The call `header.replace(/^Basic\s+/i, "")`: a leading `Basic` in any letter
case followed by at least one white-space character is removed, together with
all the white space that follows it. -/
def stripBasic (header : Str) : Str :=
  if lower (header.take 5) = "basic".toList then
    let rest := header.drop 5
    if (rest.takeWhile isJsSpace).isEmpty then header else rest.dropWhile isJsSpace
  else header

/-- The test of line 41, `user === BASIC_USER && pass === BASIC_PASS`, on the
first two fields of the decoded token; a missing field is `undefined`. -/
def credentialsMatch (w : World) (env : Env) (req : Request) : Bool :=
  let header := (getKey "authorization".toList req.headers).getD []
  let token := stripBasic header
  let fields := split ':' (w.base64Text token)
  fields.get? 0 = BASIC_USER env && fields.get? 1 = BASIC_PASS env

/-- The 401 answer of lines 43-44. -/
def unauthorized (w : World) (req : Request) (res : Res) : Res :=
  ((res.setHeader "WWW-Authenticate".toList "Basic realm=\"OpenVoice Studio\"".toList).withStatus
    401).json w req (.obj [("error".toList, .str "Unauthorized".toList)])

/-! ## Forwarder (lines 56-93) -/

/-- The `forEach` of lines 71-74: every upstream header but
`transfer-encoding` is set on the response. -/
def relayHeaders (res : Res) : List (Str × Str) → Res
  | [] => res
  | (key, value) :: rest =>
    if key = "transfer-encoding".toList then relayHeaders res rest
    else relayHeaders (res.setHeader key value) rest

/-- The value written by `res.json(data ?? {})` when `upstream.json()` resolves
with the parse of a text denoting `v`: `{}` for `null`, else what
`JSON.stringify` writes for the parsed value. -/
def relayedJson (w : World) : Json → Json
  | .null => .obj []
  | v => reserialise w v

/-- Lines 83-84 for a body read with `upstream.json()`: a value is answered
through `relayedJson`; a rejection is caught and answered `{}`; when the
promise never settles, line 84 is not reached. -/
def relayJson (w : World) (req : Request) (res : Res) : Body → Res
  | .json v => res.json w req (relayedJson w v)
  | .notJson => res.json w req (.obj [])
  | .aborted true => res.json w req (.obj [])
  | .aborted false => { res with payload := .pending }

/-- The `init` object built at lines 59-66. -/
def fetchInit (req : Request) : FetchInit :=
  { method := req.method
    headers := req.headers.filter (fun h => h.1 ≠ "host".toList)
    hasBody := !(["GET".toList, "HEAD".toList].contains req.method) }

/-- The function `forward(req, res, targetPath)`: the `catch` block is the
`.failed` branch. -/
def forward (w : World) (env : Env) (req : Request) (res : Res) (targetPath : Str) : Res :=
  let url := BASE env ++ targetPath
  let res := { res with fetched := res.fetched ++ [url] }
  match w.fetch url (fetchInit req) with
  | .failed message =>
    (res.withStatus 502).json w req
      (.obj [("error".toList, .str "Upstream request failed".toList), ("detail".toList, .str message)])
  | .response upstream =>
    let res := relayHeaders (res.withStatus upstream.status) upstream.headers
    match upstream.body with
    | none => { res with payload := .empty }
    | some body =>
      let contentType := (getKey "content-type".toList upstream.headers).getD []
      if includes contentType "application/json".toList then relayJson w req res body
      else { res with payload := .pipe body }

/-- Target path of the `/api/change_voice*` handler (lines 100-101). -/
def changeVoiceTarget (url : Str) : Str :=
  "/change_voice".toList ++ stripApiPrefix url "/api/change_voice".toList

/-- Target path of the `/api/base_tts*` handler (lines 105-106). -/
def baseTtsTarget (url : Str) : Str :=
  "/base_tts".toList ++ stripApiPrefix url "/api/base_tts".toList

/-- Target path of the `/api/synthesize_speech*` handler (lines 110-111). -/
def synthesizeSpeechTarget (url : Str) : Str :=
  "/synthesize_speech".toList ++ stripApiPrefix url "/api/synthesize_speech".toList

/-! ## Directory listing (lines 114-132) -/

/-- JavaScript `Array.prototype.sort(cmp)`: a stable sort, `a` placed before `b` when
`cmp(a, b)` is not positive. -/
def arraySort {α : Type} (cmp : α → α → ℚ) (xs : List α) : List α :=
  xs.insertionSort (fun a b => cmp a b ≤ 0)

/-- The `.map` of lines 119-127; the first `statSync` that throws ends it. -/
def statEntries (w : World) (dir : Str) : List Dirent → Except Str (List Entry)
  | [] => .ok []
  | entry :: rest =>
    match w.statSync (pathJoin dir entry.name) with
    | .error message => .error message
    | .ok stats =>
      match statEntries w dir rest with
      | .error message => .error message
      | .ok tail => .ok ({ name := entry.name, size := stats.size, mtimeMs := stats.mtimeMs } :: tail)

/-- The filter predicate of line 118. -/
def isListed (entry : Dirent) : Bool := entry.isFile && !startsWith entry.name ".".toList

/-- The function `listDirectory(dir)`; `.error` stands for the thrown `Error`. -/
def listDirectory (w : World) (dir : Str) : Except Str (List Entry) :=
  match w.readdirSync dir with
  | .error message => .error ("Failed to read ".toList ++ dir ++ ": ".toList ++ message)
  | .ok entries =>
    match statEntries w dir (entries.filter isListed) with
    | .error message => .error ("Failed to read ".toList ++ dir ++ ": ".toList ++ message)
    | .ok listed => .ok (arraySort (fun a b => b.mtimeMs - a.mtimeMs) listed)

/-- The order `arraySort` establishes for the comparator of line 128. -/
def newerFirst (a b : Entry) : Prop := b.mtimeMs - a.mtimeMs ≤ 0

instance : DecidableRel newerFirst := fun a b => inferInstanceAs (Decidable (b.mtimeMs - a.mtimeMs ≤ 0))

instance : IsTotal Entry newerFirst where
  total a b := by
    unfold newerFirst
    rcases le_total a.mtimeMs b.mtimeMs with h | h
    · right; linarith
    · left; linarith

instance : IsTrans Entry newerFirst where
  trans a b c hab hbc := by
    unfold newerFirst at *
    linarith

/-- The value of the JSON text written for one listing element. -/
def Entry.toJson (w : World) (e : Entry) : Json :=
  .obj [("name".toList, .str e.name), ("size".toList, .num (w.printDouble e.size)),
    ("mtimeMs".toList, .num (w.printDouble e.mtimeMs))]

/-- Handler of `/api/refs` and `/api/outs` (lines 134-148). -/
def listHandler (w : World) (req : Request) (dir : Str) (res : Res) : Res :=
  match listDirectory w dir with
  | .ok listed => res.json w req (.arr (listed.map (Entry.toJson w)))
  | .error message => (res.withStatus 500).json w req (.obj [("error".toList, .str message)])

/-! ## File retrieval (lines 158-174) -/

/-- Handler of `/api/refs/:file` and `/api/outs/:file` for the decoded
parameter `file`: a path `safeResolve` returns is handed to `res.sendFile`,
which decides the answer; a thrown error is answered 404. -/
def fileHandler (w : World) (req : Request) (root file : Str) (res : Res) : Res :=
  match safeResolve w.cwd root file with
  | .ok filePath =>
    let res := { res with sent := res.sent ++ [filePath] }
    match w.sendFile req filePath with
    | .served status => { res.withStatus status with payload := .file filePath }
    | .failed status => { res.withStatus status with payload := .errorPage }
  | .error message => (res.withStatus 404).json w req (.obj [("error".toList, .str message)])

/-! ## Routing -/

/-- Characters for which Express's URL parsing leaves its fast path. -/
def needsFullParse (c : Char) : Bool :=
  let n := c.toNat
  n = 9 || n = 10 || n = 12 || n = 13 || n = 32 || n = 35 || n = 160 || n = 65279

/-- The path Express routes on: for a URL that starts with `/` and holds none
of the characters of `needsFullParse`, what precedes the first `?`; for any
other URL, the `pathname` of `url.parse`. -/
def pathname (w : World) (url : Str) : Option Str :=
  if url.head? = some '/' ∧ (url.drop 1).all (fun c => !needsFullParse c) then
    some (url.takeWhile (fun c => c ≠ '?'))
  else w.urlPathname url

/-- Express match of a literal route: case-insensitive, one trailing `/`
allowed. -/
def matchLiteral (route p : Str) : Bool :=
  lower p = route || lower p = route ++ ['/']

/-- Line terminators, which `.` of a regular expression does not match. -/
def isLineTerminator (c : Char) : Bool :=
  c.toNat = 10 || c.toNat = 13 || c.toNat = 8232 || c.toNat = 8233

/-- Express match of a route ending in `*`; `route` is the part before `*`. -/
def matchWildcard (route p : Str) : Bool :=
  startsWith (lower p) route && (p.drop route.length).all (fun c => !isLineTerminator c)

/-- Express match of a route ending in one `:param`; `route` is the part
before the parameter. Gives the raw parameter. -/
def matchParam (route p : Str) : Option Str :=
  if startsWith (lower p) route then
    let rest := p.drop route.length
    let seg := if rest.getLast? = some '/' then rest.dropLast else rest
    if seg ≠ [] ∧ '/' ∉ seg then some seg else none
  else none

/-- The three shapes of route path the gateway registers: a literal path, a
path ending in `*` (given without the `*`), a path ending in `:file` (given
without the parameter). -/
inductive Pattern where
  | literal (path : Str) : Pattern
  | wildcard (path : Str) : Pattern
  | param (path : Str) : Pattern

/-- Outcome of matching a path against a route: no match, a match whose
captured text does not decode, or a match with the decoded captured text. -/
inductive Matched where
  | miss : Matched
  | malformed : Matched
  | hit (captured : Str) : Matched
deriving DecidableEq

/-- Express's decoding of a captured text: the empty text is left alone, any
other goes through `decodeURIComponent`. -/
def decodeParam (w : World) (raw : Str) : Option Str :=
  if raw = [] then some [] else w.decodeURIComponent raw

/-- Match a path against a route path; the text captured by `*` or `:file` is
decoded. -/
def matchLayer (w : World) (pattern : Pattern) (p : Str) : Matched :=
  match pattern with
  | .literal path => if matchLiteral path p then .hit [] else .miss
  | .wildcard path =>
    if matchWildcard path p then
      match decodeParam w (p.drop path.length) with
      | some captured => .hit captured
      | none => .malformed
    else .miss
  | .param path =>
    match matchParam path p with
    | some raw =>
      match decodeParam w raw with
      | some captured => .hit captured
      | none => .malformed
    | none => .miss

/-- A registered route: `post` is true for `app.post`, false for `app.get`;
the handler takes the decoded captured text. -/
structure Layer where
  post : Bool
  pattern : Pattern
  handler : World → Env → Request → Str → Res → Res

/-- Whether a route takes the request method: `app.get` routes take `GET` and
`HEAD`, `app.post` routes take `POST`. -/
def Layer.takes (layer : Layer) (method : Str) : Bool :=
  if layer.post then isPost method else isGet method

/-- The routes of lines 48-174 in registration order. -/
def layers : List Layer :=
  [ { post := false, pattern := .literal "/healthz".toList,
      handler := fun w env req _ res =>
        res.json w req (.obj [("ok".toList, .bool true), ("base".toList, .str (BASE env))]) },
    { post := true, pattern := .literal "/api/upload_audio".toList,
      handler := fun w env req _ res => forward w env req res "/upload_audio/".toList },
    { post := true, pattern := .wildcard "/api/change_voice".toList,
      handler := fun w env req _ res => forward w env req res (changeVoiceTarget req.url) },
    { post := false, pattern := .wildcard "/api/base_tts".toList,
      handler := fun w env req _ res => forward w env req res (baseTtsTarget req.url) },
    { post := false, pattern := .wildcard "/api/synthesize_speech".toList,
      handler := fun w env req _ res => forward w env req res (synthesizeSpeechTarget req.url) },
    { post := false, pattern := .literal "/api/refs".toList,
      handler := fun w env req _ res => listHandler w req (REF_DIR env) res },
    { post := false, pattern := .literal "/api/outs".toList,
      handler := fun w env req _ res => listHandler w req (OUT_DIR env) res },
    { post := false, pattern := .param "/api/refs/".toList,
      handler := fun w env req file res => fileHandler w req (REF_DIR env) file res },
    { post := false, pattern := .param "/api/outs/".toList,
      handler := fun w env req file res => fileHandler w req (OUT_DIR env) file res } ]

/-- Express's walk over the routes for the path `p`: the first route whose
path matches and whose method fits handles the request; a captured text that
does not decode ends the walk with the default handler's 400, whatever the
method; when no route is left the default handler answers 404. -/
def dispatch (w : World) (env : Env) (req : Request) (p : Str) (res : Res) : List Layer → Res
  | [] => { res.withStatus 404 with payload := .errorPage }
  | layer :: rest =>
    match matchLayer w layer.pattern p with
    | .miss => dispatch w env req p res rest
    | .malformed => { res.withStatus 400 with payload := .errorPage }
    | .hit captured =>
      if layer.takes req.method then layer.handler w env req captured res
      else dispatch w env req p res rest

/-- The routes applied to a request; a URL without a path gets the default
404. -/
def route (w : World) (env : Env) (req : Request) (res : Res) : Res :=
  match pathname w req.url with
  | some p => dispatch w env req p res layers
  | none => { res.withStatus 404 with payload := .errorPage }

/-- The auth gate of lines 35-46 followed by the routes. -/
def authGate (w : World) (env : Env) (req : Request) (res : Res) : Res :=
  if truthy (BASIC_USER env) then
    if credentialsMatch w env req then route w env req res else unauthorized w req res
  else route w env req res

/-- The whole middleware chain for one request: body parser (line 7), CORS
middleware (lines 17-32), auth gate, routes. -/
def handle (w : World) (env : Env) (req : Request) : Res :=
  match req.bodyError with
  | some status => { Res.fresh.withStatus status with payload := .errorPage }
  | none =>
    let res := corsHeaders env Res.fresh
    if req.method = "OPTIONS".toList then res.withStatus 204
    else authGate w env req res

/-! ## A concrete world, for evaluating the gateway at concrete requests -/

/-- Value of a base64 digit (standard and URL-safe alphabets). -/
def base64Value (c : Char) : Option Nat :=
  let n := c.toNat
  if 65 ≤ n ∧ n ≤ 90 then some (n - 65)
  else if 97 ≤ n ∧ n ≤ 122 then some (n - 71)
  else if 48 ≤ n ∧ n ≤ 57 then some (n + 4)
  else if c = '+' ∨ c = '-' then some 62
  else if c = '/' ∨ c = '_' then some 63
  else none

/-- Bytes of a run of base64 digits. -/
def sextetsToBytes : List Nat → List Nat
  | a :: b :: c :: d :: rest =>
    (a * 4 + b / 16) :: ((b % 16) * 16 + c / 4) :: ((c % 4) * 64 + d) :: sextetsToBytes rest
  | [a, b, c] => [a * 4 + b / 16, (b % 16) * 16 + c / 4]
  | [a, b] => [a * 4 + b / 16]
  | _ => []

/-- Node's `Buffer.from(token, "base64").toString()` on tokens that decode to ASCII
text: digits up to the first `=` are decoded, other characters are skipped;
a byte above 127 is shown as U+FFFD. -/
def asciiBase64Text (token : Str) : Str :=
  (sextetsToBytes ((token.takeWhile (fun c => c ≠ '=')).filterMap base64Value)).map
    (fun b => if b < 128 then Char.ofNat b else Char.ofNat 65533)

/-- Value of a hexadecimal digit. -/
def hexValue (c : Char) : Option Nat :=
  let n := c.toNat
  if 48 ≤ n ∧ n ≤ 57 then some (n - 48)
  else if 65 ≤ n ∧ n ≤ 70 then some (n - 55)
  else if 97 ≤ n ∧ n ≤ 102 then some (n - 87)
  else none

/-- JavaScript `decodeURIComponent` on ASCII escapes: `%XX` below 128 is decoded, a
malformed escape fails; escapes of 128 and above are left out of this sample
and fail too. -/
def asciiDecodeURIComponent : Str → Option Str
  | [] => some []
  | c :: rest =>
    if c = '%' then
      match rest with
      | h :: l :: rest2 =>
        match hexValue h, hexValue l with
        | some a, some b =>
          if 16 * a + b < 128 then
            (asciiDecodeURIComponent rest2).map (fun t => Char.ofNat (16 * a + b) :: t)
          else none
        | _, _ => none
      | _ => none
    else (asciiDecodeURIComponent rest).map (fun t => c :: t)

/-- The `pathname` of `url.parse` on two shapes of request target: for
`/path?query#fragment`, the text up to `?` or `#`; for the absolute form
`http://host/path?query`, the text from the first `/` after the host up to `?`
or `#`, or `/` when there is none. Other inputs are left out of this sample
and have no path. -/
def samplePathname (u : Str) : Option Str :=
  if u.head? = some '/' then some (u.takeWhile (fun c => c ≠ '?' ∧ c ≠ '#'))
  else if startsWith u "http://".toList then
    let rest := (u.drop 7).dropWhile (fun c => c ≠ '/' ∧ c ≠ '?' ∧ c ≠ '#')
    if rest.head? = some '/' then some (rest.takeWhile (fun c => c ≠ '?' ∧ c ≠ '#'))
    else some ['/']
  else none

/-- The freshness test on a request whose only validator is
`If-None-Match: *`, which every response satisfies; other conditional requests
are left out of this sample and count as stale. -/
def starFresh (req : Request) : Bool :=
  getKey "if-none-match".toList req.headers = some "*".toList &&
  (getKey "if-modified-since".toList req.headers).isNone &&
  (getKey "cache-control".toList req.headers).isNone

/-- A reference directory with three audio files, a hidden file and a
sub-directory; an output directory with hidden files only; a directory
`/refs2` next to the reference directory, holding `secret.wav`; an upstream
that answers every call with `reply`. Numbers of magnitude `2^1024` and above
are beyond the doubles; the other numbers of the sample are integers that are
doubles and are written back in full. -/
def sampleWorld (reply : FetchResult) : World where
  cwd := "/app".toList
  base64Text := asciiBase64Text
  decodeURIComponent := asciiDecodeURIComponent
  urlPathname := samplePathname
  toDouble := fun q => if |q| < 2 ^ 1024 then some q else none
  printDouble := fun d => d
  fresh := fun req _ => starFresh req
  readdirSync := fun dir =>
    if dir = "/refs".toList then
      .ok [⟨"a.wav".toList, true⟩, ⟨".hidden".toList, true⟩, ⟨"b.wav".toList, true⟩,
           ⟨"sub".toList, false⟩, ⟨"c.wav".toList, true⟩]
    else if dir = "/outs".toList then .ok [⟨".keep".toList, true⟩, ⟨".DS_Store".toList, true⟩]
    else .error "ENOENT: no such file or directory".toList
  statSync := fun p =>
    if p = "/refs/a.wav".toList then .ok ⟨1024, 1000⟩
    else if p = "/refs/b.wav".toList then .ok ⟨2048, 3000⟩
    else if p = "/refs/c.wav".toList then .ok ⟨512, 2000⟩
    else .error "ENOENT: no such file or directory".toList
  sendFile := fun _ p =>
    if p = "/refs/a.wav".toList ∨ p = "/refs/b.wav".toList ∨ p = "/refs/c.wav".toList ∨
        p = "/refs2/secret.wav".toList then .served 200
    else .failed 404
  fetch := fun _ _ => reply

/-- An environment with nothing set: every default applies, no auth. -/
def defaultEnv : Env where
  OPENVOICE_BASE_URL := none
  REF_DIR := none
  OUT_DIR := none
  BASIC_AUTH_USER := none
  BASIC_AUTH_PASS := none
  CORS_ORIGIN := none

/-- An environment with Basic auth configured. -/
def authEnv (user pass : Str) : Env :=
  { defaultEnv with BASIC_AUTH_USER := some user, BASIC_AUTH_PASS := some pass }

/-- An upstream that refuses the connection. -/
def refused : FetchResult := .failed "connect ECONNREFUSED 127.0.0.1:8786".toList


/-- An upstream answer with status 200, content-type `application/json` and
the given body. -/
def jsonReply (body : Option Body) : FetchResult :=
  .response ⟨200, [("content-type".toList, "application/json".toList)], body⟩

/-- A bare request: no headers, accepted by the body parser. -/
def bare (method url : Str) : Request := ⟨method, url, [], none⟩

/-! ## Lemmas on strings and route matching -/

theorem startsWith_append (a s : Str) : startsWith (a ++ s) a = true := by
  simp [startsWith]

theorem stripApiPrefix_append (a s : Str) : stripApiPrefix (a ++ s) a = s := by
  simp [stripApiPrefix, startsWith_append, slice]

/-- For a URL that is the inbound prefix followed by `s`, the three wildcard
handlers compute the upstream prefix followed by `s`. -/
theorem targets_of_exact_prefix (s : Str) :
    baseTtsTarget ("/api/base_tts".toList ++ s) = "/base_tts".toList ++ s ∧
    changeVoiceTarget ("/api/change_voice".toList ++ s) = "/change_voice".toList ++ s ∧
    synthesizeSpeechTarget ("/api/synthesize_speech".toList ++ s)
      = "/synthesize_speech".toList ++ s := by
  refine ⟨?_, ?_, ?_⟩
  · simp only [baseTtsTarget, stripApiPrefix_append]
  · simp only [changeVoiceTarget, stripApiPrefix_append]
  · simp only [synthesizeSpeechTarget, stripApiPrefix_append]

theorem isGet_not_isPost {m : Str} (h : isGet m = true) : isPost m = false := by
  simp only [isGet, Bool.or_eq_true, decide_eq_true_eq] at h
  rcases h with h | h <;> subst h <;> decide

theorem isPost_not_isGet {m : Str} (h : isPost m = true) : isGet m = false := by
  simp only [isPost, decide_eq_true_eq] at h
  subst h
  decide

/-- A path that matches one literal route matches no literal route with another
path. -/
theorem matchLiteral_exclusive {a b p : Str} (h : matchLiteral a p = true)
    (h1 : a ≠ b) (h2 : a ≠ b ++ ['/']) (h3 : a ++ ['/'] ≠ b) :
    matchLiteral b p = false := by
  simp only [matchLiteral, Bool.or_eq_true, decide_eq_true_eq] at h
  simp only [matchLiteral, Bool.or_eq_false_iff, decide_eq_false_iff_not]
  rcases h with h | h
  · rw [h]
    exact ⟨h1, h2⟩
  · rw [h]
    refine ⟨h3, ?_⟩
    intro hc
    exact h1 (List.append_cancel_right hc)

/-! ## Lemmas on sending -/

theorem reqFresh_of_not_conditional {w : World} {req : Request} (res : Res)
    (h : conditional req = false) : reqFresh w req res = false := by
  simp [reqFresh, h]

theorem reqFresh_of_status {w : World} {req : Request} {res : Res}
    (h1 : ¬ (200 ≤ res.status ∧ res.status < 300)) (h2 : res.status ≠ 304) :
    reqFresh w req res = false := by
  have : ((decide (200 ≤ res.status) && decide (res.status < 300)) || decide (res.status = 304))
      = false := by
    simp only [Bool.or_eq_false_iff, Bool.and_eq_false_iff, decide_eq_false_iff_not]
    exact ⟨by tauto, h2⟩
  simp [reqFresh, this]

/-- When the request is not answered as fresh, the status is none of 204, 205
and 304 and the method is not `HEAD`, `res.send` writes the body under the
status set before. -/
theorem send_of_plain {w : World} {req : Request} {res : Res} (p : Payload)
    (hf : reqFresh w req { res with payload := p } = false)
    (h204 : res.status ≠ 204) (h205 : res.status ≠ 205) (h304 : res.status ≠ 304)
    (hhead : req.method ≠ "HEAD".toList) :
    res.send w req p = { res with payload := p } := by
  simp only [Res.send, hf, Bool.false_eq_true, if_false, h204, h205, h304, false_or, hhead]

theorem send_fetched (w : World) (req : Request) (res : Res) (p : Payload) :
    (res.send w req p).fetched = res.fetched := by
  unfold Res.send
  simp only []
  split_ifs <;> rfl

theorem send_sent (w : World) (req : Request) (res : Res) (p : Payload) :
    (res.send w req p).sent = res.sent := by
  unfold Res.send
  simp only []
  split_ifs <;> rfl

/-! ## Lemmas on `JSON.parse` followed by `JSON.stringify` -/

/-- A new name that is not an array index goes last. -/
theorem defineProperty_append {α : Type} (name : Str) (value : α) (acc : List (Str × α))
    (hidx : arrayIndex name = none) (hnew : acc.any (fun kv => kv.1 = name) = false) :
    defineProperty name value acc = acc ++ [(name, value)] := by
  induction acc with
  | nil => rfl
  | cons kv rest ih =>
    obtain ⟨k, v⟩ := kv
    simp only [List.any_cons, Bool.or_eq_false_iff, decide_eq_false_iff_not] at hnew
    simp only [defineProperty, hnew.1, hnew.2, hidx, if_false, Bool.false_eq_true, ih hnew.2,
      List.cons_append]

/-- Members with distinct names, none an array index, make an object with
these members in their order. -/
theorem buildObject_of_distinct {α : Type} (members acc : List (Str × α))
    (hidx : ∀ kv ∈ members, arrayIndex kv.1 = none)
    (hnodup : (members.map Prod.fst).Nodup)
    (hnew : ∀ kv ∈ members, acc.any (fun x => x.1 = kv.1) = false) :
    members.foldl (fun acc kv => defineProperty kv.1 kv.2 acc) acc = acc ++ members := by
  induction members generalizing acc with
  | nil => simp
  | cons kv rest ih =>
    simp only [List.foldl_cons]
    rw [defineProperty_append kv.1 kv.2 acc (hidx kv (List.mem_cons_self _ _))
      (hnew kv (List.mem_cons_self _ _))]
    simp only [List.map_cons, List.nodup_cons] at hnodup
    rw [ih _ (fun x hx => hidx x (List.mem_cons_of_mem _ hx)) hnodup.2]
    · simp
    · intro x hx
      simp only [List.any_append, List.any_cons, List.any_nil, Bool.or_false,
        Bool.or_eq_false_iff, decide_eq_false_iff_not]
      refine ⟨hnew x (List.mem_cons_of_mem _ hx), ?_⟩
      intro hc
      exact hnodup.1 (hc ▸ List.mem_map_of_mem Prod.fst hx)

theorem plainMembers_spec (members : List (Str × Json)) (h : Json.plainMembers members = true) :
    (∀ kv ∈ members, arrayIndex kv.1 = none) ∧ (members.map Prod.fst).Nodup := by
  induction members with
  | nil => simp
  | cons kv rest ih =>
    obtain ⟨k, v⟩ := kv
    simp only [Json.plainMembers, Bool.and_eq_true, Bool.not_eq_true', Option.isNone_iff_eq_none]
      at h
    obtain ⟨⟨⟨_, hk⟩, hany⟩, hrest⟩ := h
    obtain ⟨hidx, hnodup⟩ := ih hrest
    constructor
    · intro x hx
      rcases List.mem_cons.mp hx with hx | hx
      · subst hx; exact hk
      · exact hidx x hx
    · simp only [List.map_cons, List.nodup_cons]
      refine ⟨?_, hnodup⟩
      intro hmem
      obtain ⟨x, hx, hxk⟩ := List.mem_map.mp hmem
      have : rest.any (fun kv => kv.1 = k) = true := by
        simp only [List.any_eq_true, decide_eq_true_eq]
        exact ⟨x, hx, hxk⟩
      rw [this] at hany
      exact absurd hany (by decide)

mutual
/-- A plain value comes back from `JSON.parse` and `JSON.stringify` as it
is. -/
theorem reserialise_plain (w : World) : ∀ v : Json, v.plain = true → reserialise w v = v
  | .null, _ => by simp [reserialise]
  | .bool _, _ => by simp [reserialise]
  | .num _, h => by simp [Json.plain] at h
  | .str _, _ => by simp [reserialise]
  | .arr items, h => by
    simp only [Json.plain] at h
    simp only [reserialise, reserialiseItems_plain w items h]
  | .obj members, h => by
    simp only [Json.plain] at h
    have hm := reserialiseMembers_plain w members h
    obtain ⟨hidx, hnodup⟩ := plainMembers_spec members h
    simp only [reserialise, hm, buildObject]
    rw [buildObject_of_distinct members [] hidx hnodup (by simp)]
    simp
/-- Plain items come back as they are. -/
theorem reserialiseItems_plain (w : World) :
    ∀ items : List Json, Json.plainItems items = true → reserialiseItems w items = items
  | [], _ => by simp [reserialiseItems]
  | v :: rest, h => by
    simp only [Json.plainItems, Bool.and_eq_true] at h
    simp only [reserialiseItems, reserialise_plain w v h.1, reserialiseItems_plain w rest h.2]
/-- Plain member values come back as they are. -/
theorem reserialiseMembers_plain (w : World) :
    ∀ members : List (Str × Json), Json.plainMembers members = true →
      reserialiseMembers w members = members
  | [], _ => by simp [reserialiseMembers]
  | (k, v) :: rest, h => by
    simp only [Json.plainMembers, Bool.and_eq_true] at h
    simp only [reserialiseMembers, reserialise_plain w v h.1.1.1,
      reserialiseMembers_plain w rest h.2]
end

/-! ## Lemmas on the listing -/

theorem arraySort_newerFirst (xs : List Entry) :
    arraySort (fun a b => b.mtimeMs - a.mtimeMs) xs = xs.insertionSort newerFirst := by
  unfold arraySort newerFirst
  congr

/-- A successful listing is the sorted list of the stat records of the kept
directory entries. -/
theorem listDirectory_ok {w : World} {dir : Str} {result : List Entry}
    (h : listDirectory w dir = .ok result) :
    ∃ entries listed, w.readdirSync dir = .ok entries ∧
      statEntries w dir (entries.filter isListed) = .ok listed ∧
      result = listed.insertionSort newerFirst := by
  unfold listDirectory at h
  cases hr : w.readdirSync dir with
  | error m => simp [hr] at h
  | ok entries =>
    simp only [hr] at h
    cases hs : statEntries w dir (entries.filter isListed) with
    | error m => simp [hs] at h
    | ok listed =>
      simp only [hs, Except.ok.injEq] at h
      exact ⟨entries, listed, rfl, hs, by rw [← h, arraySort_newerFirst]⟩

/-- Each record `statEntries` returns carries the name of its directory entry
and the size and time `statSync` reports for the joined path. -/
theorem statEntries_ok (w : World) (dir : Str) :
    ∀ (kept : List Dirent) (listed : List Entry), statEntries w dir kept = .ok listed →
      List.Forall₂ (fun (d : Dirent) (e : Entry) =>
        ∃ stats, w.statSync (pathJoin dir d.name) = .ok stats ∧
          e = { name := d.name, size := stats.size, mtimeMs := stats.mtimeMs }) kept listed := by
  intro kept
  induction kept with
  | nil =>
    intro listed h
    simp only [statEntries, Except.ok.injEq] at h
    subst h
    exact List.Forall₂.nil
  | cons d rest ih =>
    intro listed h
    simp only [statEntries] at h
    cases hst : w.statSync (pathJoin dir d.name) with
    | error m => simp [hst] at h
    | ok stats =>
      simp only [hst] at h
      cases hrest : statEntries w dir rest with
      | error m => simp [hrest] at h
      | ok tail =>
        simp only [hrest, Except.ok.injEq] at h
        subst h
        exact List.Forall₂.cons ⟨stats, hst, rfl⟩ (ih tail hrest)

/-! ## Lemmas on the forwarder -/

theorem relayHeaders_fetched (hs : List (Str × Str)) (r : Res) :
    (relayHeaders r hs).fetched = r.fetched := by
  induction hs generalizing r with
  | nil => rfl
  | cons kv rest ih =>
    obtain ⟨k, v⟩ := kv
    simp only [relayHeaders]
    split
    · exact ih r
    · rw [ih]; rfl

theorem relayHeaders_status (hs : List (Str × Str)) (r : Res) :
    (relayHeaders r hs).status = r.status := by
  induction hs generalizing r with
  | nil => rfl
  | cons kv rest ih =>
    obtain ⟨k, v⟩ := kv
    simp only [relayHeaders]
    split
    · exact ih r
    · rw [ih]; rfl

/-- The forwarder when `fetch` rejects. -/
theorem forward_of_failed {w : World} {env : Env} {req : Request} {res : Res} {target message : Str}
    (h : w.fetch (BASE env ++ target) (fetchInit req) = .failed message) :
    forward w env req res target =
      ({ res with fetched := res.fetched ++ [BASE env ++ target] }.withStatus 502).json w req
        (.obj [("error".toList, .str "Upstream request failed".toList),
          ("detail".toList, .str message)]) := by
  unfold forward
  simp only [h]

/-- The forwarder when `fetch` resolves with a response that has a body. -/
theorem forward_of_body {w : World} {env : Env} {req : Request} {res : Res} {target : Str}
    {up : Upstream} {body : Body}
    (h : w.fetch (BASE env ++ target) (fetchInit req) = .response up)
    (hb : up.body = some body) :
    forward w env req res target =
      if includes ((getKey "content-type".toList up.headers).getD []) "application/json".toList
      then relayJson w req (relayHeaders ({ res with fetched := res.fetched ++
        [BASE env ++ target] }.withStatus up.status) up.headers) body
      else { relayHeaders ({ res with fetched := res.fetched ++ [BASE env ++ target] }.withStatus
        up.status) up.headers with payload := .pipe body } := by
  unfold forward
  simp only [h, hb]

/-- The forwarder when `fetch` resolves with a response without a body. -/
theorem forward_of_no_body {w : World} {env : Env} {req : Request} {res : Res} {target : Str}
    {up : Upstream}
    (h : w.fetch (BASE env ++ target) (fetchInit req) = .response up)
    (hb : up.body = none) :
    forward w env req res target =
      { relayHeaders ({ res with fetched := res.fetched ++ [BASE env ++ target] }.withStatus
        up.status) up.headers with payload := .empty } := by
  unfold forward
  simp only [h, hb]

theorem relayJson_fetched (w : World) (req : Request) (res : Res) (body : Body) :
    (relayJson w req res body).fetched = res.fetched := by
  cases body with
  | json v => simp only [relayJson, Res.json, send_fetched]
  | notJson => simp only [relayJson, Res.json, send_fetched]
  | aborted rejects => cases rejects <;> simp only [relayJson, Res.json, send_fetched]

/-- Every call of the forwarder fetches exactly one URL: the base URL followed
by the target path. -/
theorem forward_fetched (w : World) (env : Env) (req : Request) (res : Res) (target : Str) :
    (forward w env req res target).fetched = res.fetched ++ [BASE env ++ target] := by
  cases hf : w.fetch (BASE env ++ target) (fetchInit req) with
  | failed message =>
    rw [forward_of_failed hf]
    simp only [Res.json, send_fetched, Res.withStatus]
  | response up =>
    cases hb : up.body with
    | none => rw [forward_of_no_body hf hb]; simp [relayHeaders_fetched, Res.withStatus]
    | some body =>
      rw [forward_of_body hf hb]
      split
      · simp [relayJson_fetched, relayHeaders_fetched, Res.withStatus]
      · simp [relayHeaders_fetched, Res.withStatus]

end Gateway

open Gateway

/-! ## Containment check -/

/-- C1 at a failing input: with root `/refs`, the file name
`../refs2/secret.wav` resolves to `/refs2/secret.wav`, which is neither `/refs`
nor below `/refs/`, yet `safeResolve` returns it instead of throwing, and the
request `GET /api/refs/..%2Frefs2%2Fsecret.wav` ends in `sendFile` of that
path, answered 200 where the file exists, rather than in a 404. -/
theorem safeResolve_accepts_sibling_directory :
    pathResolve "/app".toList ["/refs".toList] = "/refs".toList ∧
    pathResolve "/app".toList ["/refs".toList, "../refs2/secret.wav".toList]
      = "/refs2/secret.wav".toList ∧
    "/refs2/secret.wav".toList ≠ "/refs".toList ∧
    List.isPrefixOf "/refs/".toList "/refs2/secret.wav".toList = false ∧
    safeResolve "/app".toList "/refs".toList "../refs2/secret.wav".toList
      = .ok "/refs2/secret.wav".toList ∧
    (handle (sampleWorld refused) defaultEnv
        ⟨"GET".toList, "/api/refs/..%2Frefs2%2Fsecret.wav".toList, [], none⟩).status = 200 ∧
    (handle (sampleWorld refused) defaultEnv
        ⟨"GET".toList, "/api/refs/..%2Frefs2%2Fsecret.wav".toList, [], none⟩).payload
      = .file "/refs2/secret.wav".toList ∧
    (handle (sampleWorld refused) defaultEnv
        ⟨"GET".toList, "/api/refs/..%2Frefs2%2Fsecret.wav".toList, [], none⟩).sent
      = ["/refs2/secret.wav".toList] := by
  refine ⟨by decide, by decide, by decide, by decide, by decide, by decide, rfl, by decide⟩

/-! ## Basic auth gate -/

/-- C2 at two failing inputs, both from the `split(":")` of line 39. With
`admin` / `pa:ss` configured, the header `Basic YWRtaW46cGE6c3M=`, whose token
decodes to exactly `admin:pa:ss`, is answered 401 with a `WWW-Authenticate`
header. With `admin` / `secret` configured, the header
`Basic YWRtaW46c2VjcmV0OmV4dHJh`, whose token decodes to `admin:secret:extra`,
is let through to the route. -/
theorem auth_gate_compares_first_two_fields_only :
    asciiBase64Text "YWRtaW46cGE6c3M=".toList = "admin:pa:ss".toList ∧
    credentialsMatch (sampleWorld refused) (authEnv "admin".toList "pa:ss".toList)
      ⟨"GET".toList, "/api/refs".toList,
        [("authorization".toList, "Basic YWRtaW46cGE6c3M=".toList)], none⟩ = false ∧
    (handle (sampleWorld refused) (authEnv "admin".toList "pa:ss".toList)
      ⟨"GET".toList, "/api/refs".toList,
        [("authorization".toList, "Basic YWRtaW46cGE6c3M=".toList)], none⟩).status = 401 ∧
    (handle (sampleWorld refused) (authEnv "admin".toList "pa:ss".toList)
      ⟨"GET".toList, "/api/refs".toList,
        [("authorization".toList, "Basic YWRtaW46cGE6c3M=".toList)], none⟩).getHeader
        "WWW-Authenticate".toList = some "Basic realm=\"OpenVoice Studio\"".toList ∧
    asciiBase64Text "YWRtaW46c2VjcmV0OmV4dHJh".toList = "admin:secret:extra".toList ∧
    "admin:secret:extra".toList ≠ "admin".toList ++ ":".toList ++ "secret".toList ∧
    credentialsMatch (sampleWorld refused) (authEnv "admin".toList "secret".toList)
      ⟨"GET".toList, "/api/refs".toList,
        [("authorization".toList, "Basic YWRtaW46c2VjcmV0OmV4dHJh".toList)], none⟩ = true ∧
    (handle (sampleWorld refused) (authEnv "admin".toList "secret".toList)
      ⟨"GET".toList, "/api/refs".toList,
        [("authorization".toList, "Basic YWRtaW46c2VjcmV0OmV4dHJh".toList)], none⟩).status = 200 := by
  refine ⟨by decide, by decide, by decide, by decide, by decide, by decide, by decide, by decide!⟩

/-! ## Path rewriting -/

/-- C3 at a failing input: Express matches routes without regard to letter
case, so `GET /API/Base_TTS?x=1` is taken by the `/api/base_tts*` route; the
URL does not start with the lower-case prefix, `stripApiPrefix` returns it
whole, and the URL fetched is the base URL followed by
`/base_tts/API/Base_TTS?x=1` instead of `/base_tts?x=1`. The same happens to
the absolute-form target `http://h/api/base_tts?x=1`. -/
theorem wildcard_route_keeps_unstripped_url :
    pathname (sampleWorld refused) "/API/Base_TTS?x=1".toList = some "/API/Base_TTS".toList ∧
    matchLayer (sampleWorld refused) (.wildcard "/api/base_tts".toList) "/API/Base_TTS".toList
      = .hit [] ∧
    baseTtsTarget "/API/Base_TTS?x=1".toList = "/base_tts/API/Base_TTS?x=1".toList ∧
    (handle (sampleWorld refused) defaultEnv (bare "GET".toList "/API/Base_TTS?x=1".toList)).fetched
      = ["http://localhost:8786/base_tts/API/Base_TTS?x=1".toList] ∧
    (handle (sampleWorld refused) defaultEnv (bare "GET".toList "/API/Base_TTS?x=1".toList)).fetched
      ≠ ["http://localhost:8786/base_tts?x=1".toList] ∧
    (handle (sampleWorld refused) defaultEnv
        (bare "GET".toList "http://h/api/base_tts?x=1".toList)).fetched
      = ["http://localhost:8786/base_ttshttp://h/api/base_tts?x=1".toList] := by
  refine ⟨by decide, by decide, by decide, by decide, by decide, by decide⟩

/-- C9 (as the code has it): every request taken by the `POST
/api/upload_audio` route is passed to `forward` with the constant target path
`/upload_audio/`, whatever follows the route's path in the URL; the only URL
fetched is the base URL followed by `/upload_audio/`. -/
theorem upload_audio_target_constant (w : World) (env : Env) (req : Request) (res : Res)
    (p : Str) (hpost : isPost req.method = true) (hp : pathname w req.url = some p)
    (hm : matchLiteral "/api/upload_audio".toList p = true) :
    route w env req res = forward w env req res "/upload_audio/".toList ∧
    (route w env req res).fetched = res.fetched ++ [BASE env ++ "/upload_audio/".toList] := by
  have h1 : matchLiteral "/healthz".toList p = false :=
    matchLiteral_exclusive hm (by decide) (by decide) (by decide)
  have hroute : route w env req res = forward w env req res "/upload_audio/".toList := by
    simp only [route, hp, layers, dispatch, matchLayer, h1, hm, Layer.takes, hpost,
      Bool.false_eq_true, if_false, if_true]
  exact ⟨hroute, by rw [hroute, forward_fetched]⟩

/-- Witness of C9's amended statement at `POST /api/upload_audio?lang=en`. -/
theorem upload_audio_target_constant_witness :
    isPost "POST".toList = true ∧
    pathname (sampleWorld refused) "/api/upload_audio?lang=en".toList
      = some "/api/upload_audio".toList ∧
    matchLiteral "/api/upload_audio".toList "/api/upload_audio".toList = true ∧
    (route (sampleWorld refused) defaultEnv
        ⟨"POST".toList, "/api/upload_audio?lang=en".toList, [], none⟩ Res.fresh).fetched
      = Res.fresh.fetched ++ [BASE defaultEnv ++ "/upload_audio/".toList] :=
  ⟨by decide, by decide, by decide,
    (upload_audio_target_constant (sampleWorld refused) defaultEnv
      ⟨"POST".toList, "/api/upload_audio?lang=en".toList, [], none⟩ Res.fresh
      "/api/upload_audio".toList (by decide) (by decide) (by decide)).2⟩

/-- C9 fails as stated: `POST /api/upload_audio?lang=en` is taken by the route,
and the URL fetched is the base URL followed by `/upload_audio/`: the suffix
`?lang=en` is carried over neither after `/upload_audio/` nor after
`/upload_audio`. -/
theorem upload_audio_drops_suffix :
    isPost "POST".toList = true ∧
    pathname (sampleWorld refused) "/api/upload_audio?lang=en".toList
      = some "/api/upload_audio".toList ∧
    matchLiteral "/api/upload_audio".toList "/api/upload_audio".toList = true ∧
    (handle (sampleWorld refused) defaultEnv
        ⟨"POST".toList, "/api/upload_audio?lang=en".toList, [], none⟩).fetched
      = ["http://localhost:8786/upload_audio/".toList] ∧
    (handle (sampleWorld refused) defaultEnv
        ⟨"POST".toList, "/api/upload_audio?lang=en".toList, [], none⟩).fetched
      ≠ ["http://localhost:8786/upload_audio/?lang=en".toList] ∧
    (handle (sampleWorld refused) defaultEnv
        ⟨"POST".toList, "/api/upload_audio?lang=en".toList, [], none⟩).fetched
      ≠ ["http://localhost:8786/upload_audio?lang=en".toList] := by
  refine ⟨by decide, by decide, by decide, by decide, by decide, by decide⟩

/-! ## Directory listing -/

/-- C4: when `listDirectory` returns, its result is in descending order of
`mtimeMs`: for positions `i < j`, the entry at `i` is at least as recent as the
entry at `j`. -/
theorem listDirectory_sorted_descending (w : World) (dir : Str) (result : List Entry)
    (h : listDirectory w dir = .ok result) (i j : Nat) (a b : Entry) (hij : i < j)
    (ha : result[i]? = some a) (hb : result[j]? = some b) :
    a.mtimeMs ≥ b.mtimeMs := by
  obtain ⟨entries, listed, _, _, hres⟩ := listDirectory_ok h
  have hsorted : result.Pairwise newerFirst := by
    rw [hres]
    exact List.sorted_insertionSort newerFirst listed
  rw [List.pairwise_iff_getElem] at hsorted
  obtain ⟨hi, hai⟩ := List.getElem?_eq_some.mp ha
  obtain ⟨hj, hbj⟩ := List.getElem?_eq_some.mp hb
  have := hsorted i j hi hj hij
  rw [hai, hbj] at this
  unfold newerFirst at this
  linarith

/-- Witness of C4: files with times 1000 < 2000 < 3000 are listed in the order
3000, 2000, 1000. -/
theorem listDirectory_sorted_descending_witness :
    listDirectory (sampleWorld refused) "/refs".toList
      = .ok [⟨"b.wav".toList, 2048, 3000⟩, ⟨"c.wav".toList, 512, 2000⟩,
          ⟨"a.wav".toList, 1024, 1000⟩] ∧
    (⟨"b.wav".toList, 2048, 3000⟩ : Entry).mtimeMs ≥ (⟨"a.wav".toList, 1024, 1000⟩ : Entry).mtimeMs :=
  ⟨by decide!,
    listDirectory_sorted_descending (sampleWorld refused) "/refs".toList
      [⟨"b.wav".toList, 2048, 3000⟩, ⟨"c.wav".toList, 512, 2000⟩, ⟨"a.wav".toList, 1024, 1000⟩]
      (by decide!) 0 2 _ _ (by decide) rfl rfl⟩

/-- C5: when `listDirectory` returns, its result is a permutation of the
records of exactly those direct children that are regular files and whose name
does not start with `.`, each record made of the child's name and of the size
and time `statSync` gives for that child; and a directory whose children all
have names starting with `.` is listed as the empty sequence, not as an
error. -/
theorem listDirectory_exactly_visible_files (w : World) (dir : Str) :
    (∀ result, listDirectory w dir = .ok result →
      ∃ entries listed, w.readdirSync dir = .ok entries ∧
        List.Forall₂ (fun (d : Dirent) (e : Entry) =>
          ∃ stats, w.statSync (pathJoin dir d.name) = .ok stats ∧
            e = { name := d.name, size := stats.size, mtimeMs := stats.mtimeMs })
          (entries.filter (fun d => d.isFile && !startsWith d.name ".".toList)) listed ∧
        result.Perm listed) ∧
    (∀ entries, w.readdirSync dir = .ok entries →
      (∀ d ∈ entries, startsWith d.name ".".toList = true) →
      listDirectory w dir = .ok []) := by
  constructor
  · intro result h
    obtain ⟨entries, listed, hr, hs, hres⟩ := listDirectory_ok h
    refine ⟨entries, listed, hr, statEntries_ok w dir _ _ hs, ?_⟩
    rw [hres]
    exact List.perm_insertionSort newerFirst listed
  · intro entries hr hdot
    have hnone : entries.filter isListed = [] := by
      rw [List.filter_eq_nil_iff]
      intro d hd
      simp only [isListed, hdot d hd, Bool.not_true, Bool.and_false, Bool.false_eq_true,
        not_false_eq_true]
    simp only [listDirectory, hr, hnone, statEntries, arraySort, List.insertionSort]

/-- Witness of C5: the listing of the sample reference directory holds its
three visible files and nothing else; the output directory, which holds
dot-named files only, is listed as empty. -/
theorem listDirectory_exactly_visible_files_witness :
    (∃ entries listed, (sampleWorld refused).readdirSync "/refs".toList = .ok entries ∧
        List.Forall₂ (fun (d : Dirent) (e : Entry) =>
          ∃ stats, (sampleWorld refused).statSync (pathJoin "/refs".toList d.name) = .ok stats ∧
            e = { name := d.name, size := stats.size, mtimeMs := stats.mtimeMs })
          (entries.filter (fun d => d.isFile && !startsWith d.name ".".toList)) listed ∧
        List.Perm [⟨"b.wav".toList, 2048, 3000⟩, ⟨"c.wav".toList, 512, 2000⟩,
          ⟨"a.wav".toList, 1024, 1000⟩] listed) ∧
    listDirectory (sampleWorld refused) "/outs".toList = .ok [] :=
  ⟨(listDirectory_exactly_visible_files (sampleWorld refused) "/refs".toList).1 _ (by decide!),
    (listDirectory_exactly_visible_files (sampleWorld refused) "/outs".toList).2
      [⟨".keep".toList, true⟩, ⟨".DS_Store".toList, true⟩] rfl (by decide)⟩

/-! ## Health check -/

/-- C6 fails as stated: with `admin` / `secret` configured, `GET /healthz`
without an `Authorization` header is answered 401 `{error: "Unauthorized"}`,
not `{ok: true, base}`; and with nothing configured, `GET /healthz` with
`If-None-Match: *` is answered 304 without a body. -/
theorem healthz_requires_auth_when_configured :
    (handle (sampleWorld refused) (authEnv "admin".toList "secret".toList)
      ⟨"GET".toList, "/healthz".toList, [], none⟩).status = 401 ∧
    (handle (sampleWorld refused) (authEnv "admin".toList "secret".toList)
      ⟨"GET".toList, "/healthz".toList, [], none⟩).payload
      = .json (.obj [("error".toList, .str "Unauthorized".toList)]) ∧
    (handle (sampleWorld refused) (authEnv "admin".toList "secret".toList)
      ⟨"GET".toList, "/healthz".toList, [], none⟩).payload
      ≠ .json (.obj [("ok".toList, .bool true),
          ("base".toList, .str (BASE (authEnv "admin".toList "secret".toList)))]) ∧
    (handle (sampleWorld refused) defaultEnv
      ⟨"GET".toList, "/healthz".toList, [("if-none-match".toList, "*".toList)], none⟩).status
      = 304 ∧
    (handle (sampleWorld refused) defaultEnv
      ⟨"GET".toList, "/healthz".toList, [("if-none-match".toList, "*".toList)], none⟩).payload
      = .empty := by
  refine ⟨by decide, rfl, ?_, by decide, rfl⟩
  intro h
  have h2 : (handle (sampleWorld refused) (authEnv "admin".toList "secret".toList)
      ⟨"GET".toList, "/healthz".toList, [], none⟩).payload
      = .json (.obj [("error".toList, .str "Unauthorized".toList)]) := rfl
  rw [h2] at h
  simp at h

/-- C6 (as the code has it): `GET /healthz` sits behind the auth gate like
every route. For a `GET /healthz` request the body parser lets through: if it
is not conditional and either no username is configured or the gate's test of
line 41 succeeds, the answer is 200 with `{ok: true, base: BASE}` and no
upstream call; if a username is configured and the request has no
`Authorization` header, the answer is 401 `{error: "Unauthorized"}` with a
`WWW-Authenticate` header, also without an upstream call. -/
theorem healthz_behind_auth_gate (w : World) (env : Env) (req : Request) (p : Str)
    (hbody : req.bodyError = none) (hmethod : req.method = "GET".toList)
    (hp : pathname w req.url = some p)
    (hpath : matchLiteral "/healthz".toList p = true) :
    (conditional req = false →
      truthy (BASIC_USER env) = false ∨ credentialsMatch w env req = true →
      (handle w env req).status = 200 ∧
      (handle w env req).payload
        = .json (.obj [("ok".toList, .bool true), ("base".toList, .str (BASE env))]) ∧
      (handle w env req).fetched = []) ∧
    (truthy (BASIC_USER env) = true →
      getKey "authorization".toList req.headers = none → w.base64Text [] = [] →
      (handle w env req).status = 401 ∧
      (handle w env req).getHeader "WWW-Authenticate".toList
        = some "Basic realm=\"OpenVoice Studio\"".toList ∧
      (handle w env req).payload = .json (.obj [("error".toList, .str "Unauthorized".toList)]) ∧
      (handle w env req).fetched = []) := by
  have hopt : ¬ req.method = "OPTIONS".toList := by rw [hmethod]; decide
  have hhead : req.method ≠ "HEAD".toList := by rw [hmethod]; decide
  have hget : isGet req.method = true := by rw [hmethod]; decide
  have hroute : ∀ res, route w env req res
      = res.json w req (.obj [("ok".toList, .bool true), ("base".toList, .str (BASE env))]) := by
    intro res
    simp only [route, hp, layers, dispatch, matchLayer, hpath, Layer.takes, hget,
      Bool.false_eq_true, if_false, if_true]
  constructor
  · intro hcond hauth
    have hh : handle w env req = { corsHeaders env Res.fresh with
        payload := .json (.obj [("ok".toList, .bool true), ("base".toList, .str (BASE env))]) } := by
      have hgate : authGate w env req (corsHeaders env Res.fresh)
          = route w env req (corsHeaders env Res.fresh) := by
        unfold authGate
        rcases hauth with h | h
        · simp only [h, Bool.false_eq_true, if_false]
        · simp only [h, if_true, ite_self]
      simp only [handle, hbody, hopt, if_false, hgate, hroute, Res.json]
      exact send_of_plain _ (reqFresh_of_not_conditional _ hcond)
        (show (200 : Nat) ≠ 204 by decide) (show (200 : Nat) ≠ 205 by decide)
        (show (200 : Nat) ≠ 304 by decide) hhead
    rw [hh]
    exact ⟨rfl, rfl, rfl⟩
  · intro huser hnone hempty
    have hmatch : credentialsMatch w env req = false := by
      have hu : ∃ u, BASIC_USER env = some u ∧ u ≠ [] := by
        cases hb : BASIC_USER env with
        | none => rw [hb] at huser; exact absurd huser (by decide)
        | some u =>
          refine ⟨u, rfl, ?_⟩
          intro hu
          rw [hb, hu] at huser
          exact absurd huser (by decide)
      obtain ⟨u, hu, hne⟩ := hu
      have hstrip : stripBasic [] = [] := by decide
      simp only [credentialsMatch, hnone, Option.getD_none, hstrip, hempty, hu, split,
        List.get?_cons_zero, Bool.and_eq_false_iff, decide_eq_false_iff_not]
      left
      intro hc
      exact hne (Option.some.inj hc).symm
    have hh : handle w env req = { ((corsHeaders env Res.fresh).setHeader
        "WWW-Authenticate".toList "Basic realm=\"OpenVoice Studio\"".toList).withStatus 401 with
        payload := .json (.obj [("error".toList, .str "Unauthorized".toList)]) } := by
      simp only [handle, hbody, hopt, if_false, authGate, huser, hmatch, if_true,
        Bool.false_eq_true, unauthorized, Res.json]
      exact send_of_plain _
        (reqFresh_of_status (show ¬ (200 ≤ 401 ∧ 401 < 300) by decide)
          (show (401 : Nat) ≠ 304 by decide))
        (show (401 : Nat) ≠ 204 by decide) (show (401 : Nat) ≠ 205 by decide)
        (show (401 : Nat) ≠ 304 by decide) hhead
    rw [hh]
    exact ⟨rfl, rfl, rfl, rfl⟩

/-- Witness of C6's amended statement, with `admin` / `secret` configured:
`GET /healthz` with `Authorization: Basic YWRtaW46c2VjcmV0` (the encoding of
`admin:secret`) is answered 200 with the base URL; without the header it is
answered 401. -/
theorem healthz_behind_auth_gate_witness :
    ((handle (sampleWorld refused) (authEnv "admin".toList "secret".toList)
        ⟨"GET".toList, "/healthz".toList,
          [("authorization".toList, "Basic YWRtaW46c2VjcmV0".toList)], none⟩).status = 200 ∧
      (handle (sampleWorld refused) (authEnv "admin".toList "secret".toList)
        ⟨"GET".toList, "/healthz".toList,
          [("authorization".toList, "Basic YWRtaW46c2VjcmV0".toList)], none⟩).payload
        = .json (.obj [("ok".toList, .bool true),
            ("base".toList, .str (BASE (authEnv "admin".toList "secret".toList)))]) ∧
      (handle (sampleWorld refused) (authEnv "admin".toList "secret".toList)
        ⟨"GET".toList, "/healthz".toList,
          [("authorization".toList, "Basic YWRtaW46c2VjcmV0".toList)], none⟩).fetched = []) ∧
    ((handle (sampleWorld refused) (authEnv "admin".toList "secret".toList)
        ⟨"GET".toList, "/healthz".toList, [], none⟩).status = 401 ∧
      (handle (sampleWorld refused) (authEnv "admin".toList "secret".toList)
        ⟨"GET".toList, "/healthz".toList, [], none⟩).getHeader "WWW-Authenticate".toList
        = some "Basic realm=\"OpenVoice Studio\"".toList ∧
      (handle (sampleWorld refused) (authEnv "admin".toList "secret".toList)
        ⟨"GET".toList, "/healthz".toList, [], none⟩).payload
        = .json (.obj [("error".toList, .str "Unauthorized".toList)]) ∧
      (handle (sampleWorld refused) (authEnv "admin".toList "secret".toList)
        ⟨"GET".toList, "/healthz".toList, [], none⟩).fetched = []) :=
  ⟨(healthz_behind_auth_gate (sampleWorld refused) (authEnv "admin".toList "secret".toList)
      ⟨"GET".toList, "/healthz".toList,
        [("authorization".toList, "Basic YWRtaW46c2VjcmV0".toList)], none⟩ "/healthz".toList
      rfl rfl (by decide) (by decide)).1 (by decide) (Or.inr (by decide)),
    (healthz_behind_auth_gate (sampleWorld refused) (authEnv "admin".toList "secret".toList)
      ⟨"GET".toList, "/healthz".toList, [], none⟩ "/healthz".toList
      rfl rfl (by decide) (by decide)).2 (by decide) (by decide) (by decide)⟩

/-! ## Forwarder -/

/-- C7 fails as stated, for an upstream answer 200 `application/json`: a body
that is the valid JSON text `null` is relayed as `{}`, not as `null`; a body
that is the valid JSON text `1e400` is relayed as `null`; and nothing is
relayed, neither the value nor `{}`, when `upstream.body` is null, when the
request is a `HEAD` request (whose upstream answer has an empty body), when
the request carries `If-None-Match: *` (the answer is 304), or when the
upstream status is 204, 205 or 304. -/
theorem forward_relays_null_as_empty_object :
    ((forward (sampleWorld (jsonReply (some (.json .null)))) defaultEnv
        (bare "GET".toList "/api/base_tts".toList) Res.fresh "/base_tts".toList).payload
        = .json (.obj []) ∧
      (forward (sampleWorld (jsonReply (some (.json .null)))) defaultEnv
        (bare "GET".toList "/api/base_tts".toList) Res.fresh "/base_tts".toList).payload
        ≠ .json .null) ∧
    (forward (sampleWorld (jsonReply (some (.json (.num (10 ^ 400)))))) defaultEnv
        (bare "GET".toList "/api/base_tts".toList) Res.fresh "/base_tts".toList).payload
      = .json .null ∧
    (forward (sampleWorld (jsonReply none)) defaultEnv
        (bare "GET".toList "/api/base_tts".toList) Res.fresh "/base_tts".toList).payload
      = .empty ∧
    (forward (sampleWorld (jsonReply (some .notJson))) defaultEnv
        (bare "HEAD".toList "/api/base_tts".toList) Res.fresh "/base_tts".toList).payload
      = .empty ∧
    ((forward (sampleWorld (jsonReply (some (.json (.obj [("ok".toList, .bool true)]))))) defaultEnv
        ⟨"GET".toList, "/api/base_tts".toList, [("if-none-match".toList, "*".toList)], none⟩
        Res.fresh "/base_tts".toList).status = 304 ∧
      (forward (sampleWorld (jsonReply (some (.json (.obj [("ok".toList, .bool true)]))))) defaultEnv
        ⟨"GET".toList, "/api/base_tts".toList, [("if-none-match".toList, "*".toList)], none⟩
        Res.fresh "/base_tts".toList).payload = .empty) ∧
    ((forward (sampleWorld (.response ⟨204, [("content-type".toList, "application/json".toList)],
        some .notJson⟩)) defaultEnv
        (bare "GET".toList "/api/base_tts".toList) Res.fresh "/base_tts".toList).payload
        = .empty ∧
      (forward (sampleWorld (.response ⟨205, [("content-type".toList, "application/json".toList)],
        some .notJson⟩)) defaultEnv
        (bare "GET".toList "/api/base_tts".toList) Res.fresh "/base_tts".toList).payload
        = .empty ∧
      (forward (sampleWorld (.response ⟨304, [("content-type".toList, "application/json".toList)],
        some .notJson⟩)) defaultEnv
        (bare "GET".toList "/api/base_tts".toList) Res.fresh "/base_tts".toList).payload
        = .empty) := by
  have hnull : (forward (sampleWorld (jsonReply (some (.json .null)))) defaultEnv
        (bare "GET".toList "/api/base_tts".toList) Res.fresh "/base_tts".toList).payload
      = .json (.obj []) := rfl
  have hbig : (sampleWorld (jsonReply (some (.json (.num (10 ^ 400)))))).toDouble (10 ^ 400)
      = none := by
    simp only [sampleWorld]
    rw [if_neg]
    rw [abs_of_nonneg (by positivity)]
    norm_num
  refine ⟨⟨hnull, ?_⟩, ?_, rfl, rfl, ⟨by decide, rfl⟩, ⟨rfl, rfl, rfl⟩⟩
  · rw [hnull]
    simp
  · rw [@forward_of_body _ _ _ _ _ ⟨200, [("content-type".toList, "application/json".toList)],
      some (.json (.num (10 ^ 400)))⟩ _ rfl rfl]
    rw [if_pos (by decide)]
    simp only [relayJson, relayedJson, reserialise, hbig]
    rfl

/-- C7 (as the code has it): for an upstream response with a body whose
content-type contains `application/json` and whose status is none of 204, 205
and 304, relayed to a request that is neither `HEAD` nor conditional, the
forwarder answers with the upstream status; a body that is JSON text denoting
a value `v` other than `null` is relayed as what `JSON.parse` followed by
`JSON.stringify` make of `v`, which is `v` itself when `v` holds no number and
every object in it has distinct member names none of which is an array index;
a body that is the JSON text `null`, or that is not JSON text (the empty body
included), is relayed as `{}`. -/
theorem forward_relays_json (w : World) (env : Env) (req : Request) (res : Res) (target : Str)
    (up : Upstream) (body : Body)
    (hfetch : w.fetch (BASE env ++ target) (fetchInit req) = .response up)
    (hbody : up.body = some body)
    (hct : includes ((getKey "content-type".toList up.headers).getD []) "application/json".toList
      = true)
    (hstatus : up.status ≠ 204 ∧ up.status ≠ 205 ∧ up.status ≠ 304)
    (hhead : req.method ≠ "HEAD".toList) (hcond : conditional req = false) :
    (body = .notJson ∨ (∃ v, body = .json v) →
      (forward w env req res target).status = up.status) ∧
    (∀ v, body = .json v → v ≠ .null →
      (forward w env req res target).payload = .json (reserialise w v)) ∧
    (∀ v, body = .json v → v ≠ .null → v.plain = true →
      (forward w env req res target).payload = .json v) ∧
    (body = .json .null ∨ body = .notJson →
      (forward w env req res target).payload = .json (.obj [])) := by
  have hsend : ∀ v : Json,
      (relayHeaders ({ res with fetched := res.fetched ++ [BASE env ++ target] }.withStatus
        up.status) up.headers).json w req v
      = { relayHeaders ({ res with fetched := res.fetched ++ [BASE env ++ target] }.withStatus
        up.status) up.headers with payload := .json v } := by
    intro v
    have hs : (relayHeaders ({ res with fetched := res.fetched ++ [BASE env ++ target] }.withStatus
        up.status) up.headers).status = up.status := by
      rw [relayHeaders_status]; rfl
    exact send_of_plain _ (reqFresh_of_not_conditional _ hcond) (by rw [hs]; exact hstatus.1)
      (by rw [hs]; exact hstatus.2.1) (by rw [hs]; exact hstatus.2.2) hhead
  have hrelayed : ∀ v : Json, v ≠ .null → relayedJson w v = reserialise w v := by
    intro v hv
    cases v <;> first | exact absurd rfl hv | rfl
  rw [forward_of_body hfetch hbody]
  simp only [hct, if_true]
  refine ⟨?_, ?_, ?_, ?_⟩
  · intro h
    rcases h with h | ⟨v, h⟩ <;> subst h <;> simp only [relayJson, hsend] <;>
      simp only [relayHeaders_status, Res.withStatus]
  · intro v hv hnull
    subst hv
    simp only [relayJson, hsend, hrelayed v hnull]
  · intro v hv hnull hplain
    subst hv
    simp only [relayJson, hsend, hrelayed v hnull, reserialise_plain w v hplain]
  · intro h
    rcases h with h | h <;> subst h <;> simp only [relayJson, hsend, relayedJson]

/-- Witness of C7's amended statement: the body `{"ok":true}` with status 200
is relayed as `{"ok":true}` with status 200. -/
theorem forward_relays_json_witness :
    (forward (sampleWorld (jsonReply (some (.json (.obj [("ok".toList, .bool true)]))))) defaultEnv
        (bare "GET".toList "/api/base_tts".toList) Res.fresh "/base_tts".toList).status = 200 ∧
    (forward (sampleWorld (jsonReply (some (.json (.obj [("ok".toList, .bool true)]))))) defaultEnv
        (bare "GET".toList "/api/base_tts".toList) Res.fresh "/base_tts".toList).payload
      = .json (.obj [("ok".toList, .bool true)]) :=
  have h := forward_relays_json
    (sampleWorld (jsonReply (some (.json (.obj [("ok".toList, .bool true)]))))) defaultEnv
    (bare "GET".toList "/api/base_tts".toList) Res.fresh "/base_tts".toList
    ⟨200, [("content-type".toList, "application/json".toList)],
      some (.json (.obj [("ok".toList, .bool true)]))⟩
    (.json (.obj [("ok".toList, .bool true)])) rfl rfl (by decide)
    ⟨by decide, by decide, by decide⟩ (by decide) (by decide)
  ⟨h.1 (Or.inr ⟨_, rfl⟩), h.2.2.1 _ rfl (by simp) (by decide)⟩

/-- C8 at a failing input: the upstream answers 200 and its stream breaks
while the body is being received. With content-type `application/json` the
forwarder answers 200 with `{}` when `upstream.json()` rejects, and does not
answer at all when it never settles; with content-type `audio/wav` the broken
stream is piped under status 200. In none of the cases is the answer 502. -/
theorem forward_aborted_json_is_not_502 :
    ((forward (sampleWorld (jsonReply (some (.aborted true)))) defaultEnv
        (bare "GET".toList "/api/base_tts".toList) Res.fresh "/base_tts".toList).status = 200 ∧
      (forward (sampleWorld (jsonReply (some (.aborted true)))) defaultEnv
        (bare "GET".toList "/api/base_tts".toList) Res.fresh "/base_tts".toList).payload
        = .json (.obj [])) ∧
    ((forward (sampleWorld (jsonReply (some (.aborted false)))) defaultEnv
        (bare "GET".toList "/api/base_tts".toList) Res.fresh "/base_tts".toList).status = 200 ∧
      (forward (sampleWorld (jsonReply (some (.aborted false)))) defaultEnv
        (bare "GET".toList "/api/base_tts".toList) Res.fresh "/base_tts".toList).payload
        = .pending) ∧
    ((forward (sampleWorld (.response ⟨200, [("content-type".toList, "audio/wav".toList)],
        some (.aborted true)⟩)) defaultEnv
        (bare "GET".toList "/api/base_tts".toList) Res.fresh "/base_tts".toList).status = 200 ∧
      (forward (sampleWorld (.response ⟨200, [("content-type".toList, "audio/wav".toList)],
        some (.aborted true)⟩)) defaultEnv
        (bare "GET".toList "/api/base_tts".toList) Res.fresh "/base_tts".toList).payload
        = .pipe (.aborted true)) := by
  refine ⟨⟨by decide, rfl⟩, ⟨by decide, rfl⟩, ⟨by decide, rfl⟩⟩

/-! ## CORS headers -/

/-- C10 at a failing input: with the default origin `*`, a relayed upstream
response that itself carries `access-control-allow-origin:
https://elsewhere.example` reaches the client with that value, not with `*`:
the header copy of lines 71-74 overwrites what the CORS middleware set. -/
theorem relayed_response_overrides_cors_origin :
    CORS_ORIGIN defaultEnv = "*".toList ∧
    (handle (sampleWorld (.response ⟨200,
        [("access-control-allow-origin".toList, "https://elsewhere.example".toList)],
        some .notJson⟩)) defaultEnv ⟨"GET".toList, "/api/base_tts".toList, [], none⟩).getHeader
      "Access-Control-Allow-Origin".toList = some "https://elsewhere.example".toList ∧
    (handle (sampleWorld (.response ⟨200,
        [("access-control-allow-origin".toList, "https://elsewhere.example".toList)],
        some .notJson⟩)) defaultEnv ⟨"GET".toList, "/api/base_tts".toList, [], none⟩).getHeader
      "Access-Control-Allow-Origin".toList ≠ some (CORS_ORIGIN defaultEnv) := by
  refine ⟨by decide, by decide, by decide⟩
